import Mathlib

/-!
Shallow embedding of the zip-to-geography aggregation core of the repository
(`src/backend/lookup_tables.py`), together with theorems checking the
natural-language specification against it.

Numeric scores are modelled as rationals; the three lookup tables and the
name-to-description mapping are association lists carried in an `Env`.
Python exceptions are modelled by `Except PyErr`: `retrieve_hai_scores` and
`convert_zip_to_geoid` raise `ValueError` on a missing key, while
`retrieve_components` evaluates `json.loads(...)[0]` on the selected rows
before its own empty-check, so a missing key there raises `IndexError`
(the `ValueError` guard on line 28 of the source is unreachable).
-/

/-- Modelled from the spec: the `Component` (Factor) schema imported by
`lookup_tables.py` is absent from `src` (the `schemas.py` present holds an
older `PrincipalComponent` without a description field); per the spec a
Factor carries a name, an optional textual description, an influence
direction label and a numeric magnitude. The aggregation code constructs
`Component`s without a description, so the field must default to absent. -/
structure Component where
  name : String
  description : Option String := none
  influence : String
  score : ℚ
deriving Repr, DecidableEq

/-- Score record as used by `lookup_tables.py` (keyword arguments
`linear_hai`, `forest_hai`, `nn_hai`, `average_hai`). -/
structure HAIScores where
  linear_hai : ℚ
  forest_hai : ℚ
  nn_hai : ℚ
  average_hai : ℚ
deriving Repr, DecidableEq

/-- The Python exceptions that can cross function boundaries here. -/
inductive PyErr where
  | valueError
  | indexError
deriving Repr, DecidableEq

/-- The read-only tabular environment: ZIP→TRACT rows (in table order,
duplicates possible), the per-geoid score table, the per-geoid factor
table (each row a list of column-name/value pairs, administrative columns
included), and the factor-name→description mapping. -/
structure Env where
  zipTable : List (Int × Int)
  scoreTable : List (Int × HAIScores)
  compTable : List (Int × List (String × ℚ))
  descMap : List (String × String)

/-- `retrieve_hai_scores`: first row of the score table whose key matches,
`ValueError` when none does. -/
def retrieve_hai_scores (env : Env) (geoid : Int) : Except PyErr HAIScores :=
  match env.scoreTable.find? (fun r => decide (r.1 = geoid)) with
  | none => .error .valueError
  | some r => .ok r.2

/-- `retrieve_comp_description`: description mapped to the name, with the
fixed placeholder as fallback. -/
def retrieve_comp_description (env : Env) (comp_name : String) : String :=
  match env.descMap.find? (fun r => decide (r.1 = comp_name)) with
  | some r => r.2
  | none => "No description available."

/-- `retrieve_components`: on a missing row the source evaluates
`json.loads(component_row.to_json(orient="records"))[0]` first, which
raises `IndexError`; otherwise every column except `Geo ID`, `bias` and
`linear_hai` becomes one `Component` with the sign-derived influence label
and the looked-up description. -/
def retrieve_components (env : Env) (geoid : Int) : Except PyErr (List Component) :=
  match env.compTable.find? (fun r => decide (r.1 = geoid)) with
  | none => .error .indexError
  | some r => .ok (r.2.filterMap (fun (p : String × ℚ) =>
      if p.1 = "Geo ID" ∨ p.1 = "bias" ∨ p.1 = "linear_hai" then none
      else some { name := p.1,
                  description := some (retrieve_comp_description env p.1),
                  influence := if p.2 ≤ 0 then "positive" else "negative",
                  score := p.2 }))

/-- `convert_zip_to_geoid`: the TRACT of every row whose ZIP matches, in
table order, `ValueError` when no row matches. -/
def convert_zip_to_geoid (env : Env) (zipcode : Int) : Except PyErr (List Int) :=
  let matching := env.zipTable.filter (fun r => decide (r.1 = zipcode))
  if matching.isEmpty then .error .valueError
  else .ok (matching.map (fun r => r.2))

/-- The per-geoid loop of `retrieve_scores_for_zip`: scores then components
are fetched as a unit; a `ValueError` is caught and the geoid skipped, any
other exception (the `IndexError` from `retrieve_components`) propagates. -/
def collectLoop (env : Env) : List Int → Except PyErr (List HAIScores × List (List Component))
  | [] => .ok ([], [])
  | geoid :: rest =>
    match retrieve_hai_scores env geoid with
    | .error .valueError => collectLoop env rest
    | .error .indexError => .error .indexError
    | .ok scores =>
      match retrieve_components env geoid with
      | .error .valueError => collectLoop env rest
      | .error .indexError => .error .indexError
      | .ok components =>
        match collectLoop env rest with
        | .error e => .error e
        | .ok (ss, cs) => .ok (scores :: ss, components :: cs)

/-- One `dict` update step: `component_scores[name] += v` when the key is
present, insertion at the end otherwise. -/
def addScore : List (String × ℚ) → String → ℚ → List (String × ℚ)
  | [], n, v => [(n, v)]
  | p :: rest, n, v =>
    if p.1 = n then (p.1, p.2 + v) :: rest else p :: addScore rest n v

/-- The accumulation of raw factor magnitudes over all successful factor
lists, in iteration order (Python `dict` preserves insertion order). -/
def component_scores (all_components : List (List Component)) : List (String × ℚ) :=
  all_components.foldl
    (fun acc comp_list =>
      comp_list.foldl (fun acc2 c => addScore acc2 c.name c.score) acc) []

/-- The sort key of the source: descending absolute averaged magnitude. -/
def compLE (a b : Component) : Bool := decide (|b.score| ≤ |a.score|)

/-- The merged factor list: one `Component` per accumulated name, influence
taken from the first occurrence of the name across the flattened successful
lists, magnitude the accumulated sum divided by `k`; the entry is dropped
when no first occurrence is found (`if first_comp:`). No description is
attached here. -/
def combined_components (k : ℚ) (all_components : List (List Component)) : List Component :=
  (component_scores all_components).filterMap (fun p =>
    ((all_components.flatten).find? (fun c => decide (c.name = p.1))).map (fun fc =>
      { name := p.1, influence := fc.influence, score := p.2 / k }))

/-- Stable sort by descending absolute magnitude, truncated to 5. -/
def top_components (k : ℚ) (all_components : List (List Component)) : List Component :=
  ((combined_components k all_components).mergeSort compLE).take 5

/-- The body of `retrieve_scores_for_zip` after the loop: sentinel when no
geoid succeeded, otherwise per-field means, the recomputed average, the two
later guard branches of the source, and the merged top-5 factor list. -/
def aggregate (all_scores : List HAIScores) (all_components : List (List Component)) :
    HAIScores × List Component :=
  if all_scores.length = 0 then
    ({ linear_hai := 0, forest_hai := 0, nn_hai := 0, average_hai := -1 }, [])
  else
    let k : ℚ := all_scores.length
    let lin_score := (all_scores.map HAIScores.linear_hai).sum / k
    let forest_score := (all_scores.map HAIScores.forest_hai).sum / k
    let nn_score := (all_scores.map HAIScores.nn_hai).sum / k
    let score_obj : HAIScores :=
      { linear_hai := lin_score, forest_hai := forest_score, nn_hai := nn_score,
        average_hai := (lin_score + forest_score + nn_score) / 3 }
    if all_scores.length = 0 then
      ({ linear_hai := -1, forest_hai := -1, nn_hai := -1, average_hai := -1 }, [])
    else if all_components.length = 0 then (score_obj, [])
    else (score_obj, top_components k all_components)

/-- `retrieve_scores_for_zip`: resolution failure propagates; an
uncaught per-geoid exception propagates; otherwise the aggregation body. -/
def retrieve_scores_for_zip (env : Env) (zipcode : Int) :
    Except PyErr (HAIScores × List Component) :=
  match convert_zip_to_geoid env zipcode with
  | .error e => .error e
  | .ok geoids =>
    match collectLoop env geoids with
    | .error e => .error e
    | .ok (all_scores, all_components) => .ok (aggregate all_scores all_components)

/-- The aggregation body with the two unreachable guard branches removed
(the all-minus-one sentinel return and the empty-collection return). -/
def aggregate_live (all_scores : List HAIScores) (all_components : List (List Component)) :
    HAIScores × List Component :=
  if all_scores.length = 0 then
    ({ linear_hai := 0, forest_hai := 0, nn_hai := 0, average_hai := -1 }, [])
  else
    let k : ℚ := all_scores.length
    let lin_score := (all_scores.map HAIScores.linear_hai).sum / k
    let forest_score := (all_scores.map HAIScores.forest_hai).sum / k
    let nn_score := (all_scores.map HAIScores.nn_hai).sum / k
    let score_obj : HAIScores :=
      { linear_hai := lin_score, forest_hai := forest_score, nn_hai := nn_score,
        average_hai := (lin_score + forest_score + nn_score) / 3 }
    (score_obj, top_components k all_components)

/-- `retrieve_scores_for_zip` with the dead guards removed. -/
def retrieve_scores_for_zip_live (env : Env) (zipcode : Int) :
    Except PyErr (HAIScores × List Component) :=
  match convert_zip_to_geoid env zipcode with
  | .error e => .error e
  | .ok geoids =>
    match collectLoop env geoids with
    | .error e => .error e
    | .ok (all_scores, all_components) => .ok (aggregate_live all_scores all_components)

/-- Spec-side definition (refinement target for the factor-merge claim):
the raw magnitude a factor list contributes for a name, zero when the name
is absent from the list. -/
def lookupScore (l : List Component) (n : String) : ℚ :=
  match l.find? (fun c => decide (c.name = n)) with
  | some c => c.score
  | none => 0

/-- The value held by the accumulator for a name, zero when absent. -/
def getScore (acc : List (String × ℚ)) (n : String) : ℚ :=
  match acc.find? (fun p => decide (p.1 = n)) with
  | some p => p.2
  | none => 0

/-- A complete score row used by the concrete test environments. -/
def sA : HAIScores :=
  { linear_hai := 7/10, forest_hai := 3/5, nn_hai := 13/20, average_hai := 13/20 }

/-- Environment: one ZIP row, full data for its single geoid, one factor. -/
def envA : Env :=
  { zipTable := [(100, 1)],
    scoreTable := [(1, sA)],
    compTable := [(1, [("Geo ID", 1), ("fac", 5)])],
    descMap := [] }

/-- Environment: two geoids for ZIP 100; geoid 2 has a score row but no
factor row. -/
def envC : Env :=
  { zipTable := [(100, 1), (100, 2)],
    scoreTable := [(1, sA), (2, sA)],
    compTable := [(1, [("Geo ID", 1), ("fac", 5)])],
    descMap := [] }

/-- Environment: the single geoid of ZIP 100 has a score row but no factor
row. -/
def envD : Env :=
  { zipTable := [(100, 1)],
    scoreTable := [(1, sA)],
    compTable := [],
    descMap := [] }

/-- Environment: the single geoid of ZIP 100 has no score row at all. -/
def envD' : Env :=
  { zipTable := [(100, 1)],
    scoreTable := [],
    compTable := [],
    descMap := [] }

/-- Environment: duplicate ZIP rows for the resolver claim. -/
def envF : Env :=
  { zipTable := [(100, 1), (100, 1), (200, 3)],
    scoreTable := [],
    compTable := [],
    descMap := [] }

/-- Environment: one geoid with three factors of distinct magnitudes,
mirroring the spec scenario for ZIP 32246. -/
def envG : Env :=
  { zipTable := [(32246, 1)],
    scoreTable := [(1, sA)],
    compTable := [(1, [("Geo ID", 1), ("A", -21/10), ("B", 34/10), ("C", 1/10)])],
    descMap := [("A", "factor A")] }

/-- The single component of `envA`'s factor row, as the factor retriever
produces it. -/
def facA : Component :=
  { name := "fac", description := some "No description available.",
    influence := "negative", score := 5 }

/-- The factor row of `envG` as the factor retriever produces it. -/
def compsG : List Component :=
  [{ name := "A", description := some "factor A",
     influence := "positive", score := -21/10 },
   { name := "B", description := some "No description available.",
     influence := "negative", score := 34/10 },
   { name := "C", description := some "No description available.",
     influence := "negative", score := 1/10 }]

/-- The per-geoid loop appends a score set and a component list together or
not at all, so the two collections always have equal length. -/
theorem collectLoop_length_eq (env : Env) (geoids : List Int) :
    ∀ ss cs, collectLoop env geoids = .ok (ss, cs) → ss.length = cs.length := by
  induction geoids with
  | nil =>
    intro ss cs h
    simp only [collectLoop, Except.ok.injEq, Prod.mk.injEq] at h
    obtain ⟨h1, h2⟩ := h
    simp [← h1, ← h2]
  | cons g rest ih =>
    intro ss cs h
    simp only [collectLoop] at h
    cases hs : retrieve_hai_scores env g with
    | error e =>
      rw [hs] at h
      cases e with
      | valueError => exact ih ss cs h
      | indexError => simp at h
    | ok s =>
      rw [hs] at h
      cases hc : retrieve_components env g with
      | error e =>
        rw [hc] at h
        cases e with
        | valueError => exact ih ss cs h
        | indexError => simp at h
      | ok comps =>
        rw [hc] at h
        cases hrec : collectLoop env rest with
        | error e => rw [hrec] at h; simp at h
        | ok pair =>
          obtain ⟨ss', cs'⟩ := pair
          rw [hrec] at h
          simp only [Except.ok.injEq, Prod.mk.injEq] at h
          obtain ⟨h1, h2⟩ := h
          simp [← h1, ← h2, ih ss' cs' hrec]

/-- Every component list collected by the loop was produced by
`retrieve_components` for some geoid. -/
theorem collectLoop_components_sources (env : Env) (geoids : List Int) :
    ∀ ss cs, collectLoop env geoids = .ok (ss, cs) →
      ∀ l ∈ cs, ∃ g, retrieve_components env g = .ok l := by
  induction geoids with
  | nil =>
    intro ss cs h
    simp only [collectLoop, Except.ok.injEq, Prod.mk.injEq] at h
    obtain ⟨_, h2⟩ := h
    simp [← h2]
  | cons g rest ih =>
    intro ss cs h
    simp only [collectLoop] at h
    cases hs : retrieve_hai_scores env g with
    | error e =>
      rw [hs] at h
      cases e with
      | valueError => exact ih ss cs h
      | indexError => simp at h
    | ok s =>
      rw [hs] at h
      cases hc : retrieve_components env g with
      | error e =>
        rw [hc] at h
        cases e with
        | valueError => exact ih ss cs h
        | indexError => simp at h
      | ok comps =>
        rw [hc] at h
        cases hrec : collectLoop env rest with
        | error e => rw [hrec] at h; simp at h
        | ok pair =>
          obtain ⟨ss', cs'⟩ := pair
          rw [hrec] at h
          simp only [Except.ok.injEq, Prod.mk.injEq] at h
          obtain ⟨h1, h2⟩ := h
          intro l hl
          rw [← h2] at hl
          rcases List.mem_cons.1 hl with hl | hl
          · exact ⟨g, by rw [hc, hl]⟩
          · exact ih ss' cs' hrec l hl

/-- Shape of every component produced by the factor retriever: the
description is the looked-up text and the influence label is derived from
the sign of the raw value. -/
theorem retrieve_components_fields (env : Env) (geoid : Int) (l : List Component)
    (h : retrieve_components env geoid = .ok l) :
    ∀ c ∈ l, c.description = some (retrieve_comp_description env c.name) ∧
      c.influence = (if c.score ≤ 0 then "positive" else "negative") := by
  rw [retrieve_components] at h
  cases hf : env.compTable.find? (fun r => decide (r.1 = geoid)) with
  | none => rw [hf] at h; simp at h
  | some r =>
    rw [hf] at h
    simp only [Except.ok.injEq] at h
    intro c hc
    rw [← h] at hc
    obtain ⟨p, _, hp⟩ := List.mem_filterMap.1 hc
    by_cases hx : p.1 = "Geo ID" ∨ p.1 = "bias" ∨ p.1 = "linear_hai"
    · simp [hx] at hp
    · simp only [hx, if_false, Option.some.injEq] at hp
      rw [← hp]
      exact ⟨rfl, rfl⟩


/-- Updating the accumulator changes exactly the entry of the updated name. -/
theorem getScore_addScore (acc : List (String × ℚ)) (m n : String) (v : ℚ) :
    getScore (addScore acc m v) n = getScore acc n + if m = n then v else 0 := by
  induction acc with
  | nil =>
    by_cases hmn : m = n <;> simp [addScore, getScore, List.find?, hmn]
  | cons p rest ih =>
    by_cases hp : p.1 = m
    · by_cases hn : p.1 = n
      · simp [addScore, getScore, List.find?, hp, hn, hp ▸ hn]
      · have hmn : ¬ m = n := fun h => hn (h ▸ hp)
        simp [addScore, getScore, List.find?, hp, hn, hmn]
    · by_cases hn : p.1 = n
      · have hmn : ¬ m = n := fun h => hp (by rw [hn, h])
        have hnm : ¬ n = m := fun h => hmn h.symm
        simp [addScore, getScore, List.find?, hp, hn, hmn, hnm]
      · simpa [addScore, getScore, List.find?, hp, hn] using ih

/-- Folding one component list into the accumulator adds, per name, the sum
of the matching raw magnitudes of that list. -/
theorem getScore_foldl_comp (l : List Component) :
    ∀ (acc : List (String × ℚ)) (n : String),
      getScore (l.foldl (fun a c => addScore a c.name c.score) acc) n =
        getScore acc n + (l.map (fun c => if c.name = n then c.score else 0)).sum := by
  induction l with
  | nil => intro acc n; simp
  | cons c rest ih =>
    intro acc n
    simp only [List.foldl_cons, List.map_cons, List.sum_cons]
    rw [ih, getScore_addScore]
    ring

/-- Folding all component lists adds the per-list sums. -/
theorem getScore_foldl_lists (ls : List (List Component)) :
    ∀ (acc : List (String × ℚ)) (n : String),
      getScore (ls.foldl (fun acc2 l => l.foldl (fun a c => addScore a c.name c.score) acc2) acc) n =
        getScore acc n +
          (ls.map (fun l => (l.map (fun c => if c.name = n then c.score else 0)).sum)).sum := by
  induction ls with
  | nil => intro acc n; simp
  | cons l rest ih =>
    intro acc n
    simp only [List.foldl_cons, List.map_cons, List.sum_cons]
    rw [ih, getScore_foldl_comp]
    ring

/-- The accumulated magnitude of a name is the sum, over the successful
lists, of the raw magnitudes carried by that name. -/
theorem getScore_component_scores (ls : List (List Component)) (n : String) :
    getScore (component_scores ls) n =
      (ls.map (fun l => (l.map (fun c => if c.name = n then c.score else 0)).sum)).sum := by
  rw [component_scores, getScore_foldl_lists]
  simp [getScore, List.find?]

/-- A name is a key of the updated accumulator iff it was a key before or
is the updated name. -/
theorem keys_addScore_mem (acc : List (String × ℚ)) (n v m) :
    m ∈ (addScore acc n v).map Prod.fst ↔ m ∈ acc.map Prod.fst ∨ m = n := by
  induction acc with
  | nil => simp [addScore]
  | cons p rest ih =>
    by_cases hp : p.1 = n
    · subst hp
      simp [addScore]
      tauto
    · simp only [addScore, hp, if_false, List.map_cons, List.mem_cons]
      rw [ih]
      tauto

/-- Updating preserves distinctness of the accumulator's keys. -/
theorem keys_addScore_nodup (acc : List (String × ℚ)) (n v)
    (h : (acc.map Prod.fst).Nodup) : ((addScore acc n v).map Prod.fst).Nodup := by
  induction acc with
  | nil => simp [addScore]
  | cons p rest ih =>
    simp only [List.map_cons, List.nodup_cons] at h
    by_cases hp : p.1 = n
    · simpa [addScore, hp, List.nodup_cons] using h
    · simp only [addScore, hp, if_false, List.map_cons, List.nodup_cons]
      refine ⟨fun hm => ?_, ih h.2⟩
      rcases (keys_addScore_mem rest n v p.1).1 hm with hm | hm
      · exact h.1 hm
      · exact hp hm

/-- Keys after folding one component list: the old keys or that list's
names. -/
theorem keys_foldl_comp_mem (l : List Component) :
    ∀ (acc : List (String × ℚ)) (m : String),
      (m ∈ (l.foldl (fun a c => addScore a c.name c.score) acc).map Prod.fst ↔
        m ∈ acc.map Prod.fst ∨ m ∈ l.map Component.name) := by
  induction l with
  | nil => intro acc m; simp
  | cons c rest ih =>
    intro acc m
    simp only [List.foldl_cons, List.map_cons, List.mem_cons]
    rw [ih, keys_addScore_mem]
    tauto

/-- Folding one component list preserves distinctness of the keys. -/
theorem keys_foldl_comp_nodup (l : List Component) :
    ∀ (acc : List (String × ℚ)), (acc.map Prod.fst).Nodup →
      ((l.foldl (fun a c => addScore a c.name c.score) acc).map Prod.fst).Nodup := by
  induction l with
  | nil => intro acc h; simpa using h
  | cons c rest ih =>
    intro acc h
    exact ih _ (keys_addScore_nodup acc c.name c.score h)

/-- Keys after folding all component lists: the old keys or any observed
name. -/
theorem keys_foldl_lists_mem (ls : List (List Component)) :
    ∀ (acc : List (String × ℚ)) (m : String),
      (m ∈ ((ls.foldl (fun acc2 l => l.foldl (fun a c => addScore a c.name c.score) acc2) acc).map Prod.fst) ↔
        m ∈ acc.map Prod.fst ∨ m ∈ ls.flatten.map Component.name) := by
  induction ls with
  | nil => intro acc m; simp
  | cons l rest ih =>
    intro acc m
    simp only [List.foldl_cons, List.flatten_cons, List.map_append, List.mem_append]
    rw [ih, keys_foldl_comp_mem]
    tauto

/-- Folding all component lists preserves distinctness of the keys. -/
theorem keys_foldl_lists_nodup (ls : List (List Component)) :
    ∀ (acc : List (String × ℚ)), (acc.map Prod.fst).Nodup →
      (((ls.foldl (fun acc2 l => l.foldl (fun a c => addScore a c.name c.score) acc2) acc).map Prod.fst)).Nodup := by
  induction ls with
  | nil => intro acc h; simpa using h
  | cons l rest ih =>
    intro acc h
    exact ih _ (keys_foldl_comp_nodup l acc h)

/-- A name is accumulated iff it is observed in some successful list. -/
theorem component_scores_keys_mem (ls : List (List Component)) (m : String) :
    m ∈ (component_scores ls).map Prod.fst ↔ m ∈ ls.flatten.map Component.name := by
  rw [component_scores, keys_foldl_lists_mem]
  simp

/-- The accumulator holds each name at most once. -/
theorem component_scores_keys_nodup (ls : List (List Component)) :
    ((component_scores ls).map Prod.fst).Nodup := by
  rw [component_scores]
  exact keys_foldl_lists_nodup ls [] (by simp)

/-- With distinct keys, a member pair carries the looked-up value. -/
theorem getScore_of_mem (acc : List (String × ℚ)) (h : (acc.map Prod.fst).Nodup)
    (p : String × ℚ) (hp : p ∈ acc) : getScore acc p.1 = p.2 := by
  induction acc with
  | nil => cases hp
  | cons q rest ih =>
    simp only [List.map_cons, List.nodup_cons] at h
    rcases List.mem_cons.1 hp with hp | hp
    · simp [getScore, List.find?, hp]
    · have hq : ¬ q.1 = p.1 := by
        intro hqp
        exact h.1 (hqp ▸ List.mem_map_of_mem Prod.fst hp)
      simpa [getScore, List.find?, hq] using ih h.2 hp

/-- A name absent from a list contributes zero. -/
theorem sum_ite_eq_zero (l : List Component) (n : String)
    (h : n ∉ l.map Component.name) :
    (l.map (fun c => if c.name = n then c.score else 0)).sum = 0 := by
  induction l with
  | nil => simp
  | cons c rest ih =>
    simp only [List.map_cons, List.mem_cons, not_or] at h
    simp only [List.map_cons, List.sum_cons]
    rw [if_neg (fun hc => h.1 hc.symm), ih h.2]
    simp

/-- On a list with distinct names, the masked sum is the value of the
name's unique occurrence, zero when absent. -/
theorem sum_ite_eq_lookupScore (l : List Component) (n : String)
    (h : (l.map Component.name).Nodup) :
    (l.map (fun c => if c.name = n then c.score else 0)).sum = lookupScore l n := by
  induction l with
  | nil => simp [lookupScore]
  | cons c rest ih =>
    simp only [List.map_cons, List.nodup_cons] at h
    by_cases hc : c.name = n
    · simp only [List.map_cons, List.sum_cons, if_pos hc]
      rw [sum_ite_eq_zero rest n (hc ▸ h.1), lookupScore]
      simp [List.find?, hc]
    · simp only [List.map_cons, List.sum_cons, if_neg hc]
      rw [ih h.2, lookupScore, lookupScore]
      simp [List.find?, hc]

/-- Membership in the merged list: one entry per accumulated pair, with the
first-occurrence influence and the divided magnitude. -/
theorem mem_combined_components (k : ℚ) (ls : List (List Component)) (c : Component) :
    c ∈ combined_components k ls ↔ ∃ p ∈ component_scores ls, ∃ fc,
      ls.flatten.find? (fun x => decide (x.name = p.1)) = some fc ∧
      c = { name := p.1, description := none, influence := fc.influence,
            score := p.2 / k } := by
  constructor
  · intro hc
    obtain ⟨p, hp, hmap⟩ := List.mem_filterMap.1 hc
    obtain ⟨fc, hfc, hrec⟩ := Option.map_eq_some'.1 hmap
    exact ⟨p, hp, fc, hfc, hrec.symm⟩
  · rintro ⟨p, hp, fc, hfc, rfl⟩
    exact List.mem_filterMap.2 ⟨p, hp, by rw [hfc]; rfl⟩

/-- A `filterMap` that never drops keeps the length. -/
theorem length_filterMap_of_isSome {α β : Type} (f : α → Option β) :
    ∀ l : List α, (∀ x ∈ l, (f x).isSome) → (l.filterMap f).length = l.length := by
  intro l
  induction l with
  | nil => intro _; rfl
  | cons x rest ih =>
    intro h
    have hx := h x (List.mem_cons_self x rest)
    obtain ⟨b, hb⟩ := Option.isSome_iff_exists.1 hx
    simp [List.filterMap_cons, hb, ih (fun y hy => h y (List.mem_cons_of_mem x hy))]

/-- Every accumulated name has a first occurrence, so the merge drops no
entry. -/
theorem combined_components_length (k : ℚ) (ls : List (List Component)) :
    (combined_components k ls).length = (component_scores ls).length := by
  apply length_filterMap_of_isSome
  intro p hp
  have h1 : p.1 ∈ (component_scores ls).map Prod.fst := List.mem_map_of_mem Prod.fst hp
  have h2 := (component_scores_keys_mem ls p.1).1 h1
  obtain ⟨x, hx, hxn⟩ := List.mem_map.1 h2
  cases hfind : ls.flatten.find? (fun c => decide (c.name = p.1)) with
  | none =>
    exfalso
    have := List.find?_eq_none.1 hfind x hx
    simp [hxn] at this
  | some fc => simp [hfind]

/-- The accumulator holds exactly one entry per distinct observed name. -/
theorem component_scores_length_card (ls : List (List Component)) :
    (component_scores ls).length = (ls.flatten.map Component.name).toFinset.card := by
  have hnd := component_scores_keys_nodup ls
  have hlen : (component_scores ls).length = ((component_scores ls).map Prod.fst).length := by
    simp
  rw [hlen, ← List.toFinset_card_of_nodup hnd]
  congr 1
  ext m
  rw [List.mem_toFinset, List.mem_toFinset]
  exact component_scores_keys_mem ls m

/-- The sort key relation is transitive. -/
theorem compLE_trans : ∀ (a b c : Component), compLE a b → compLE b c → compLE a c := by
  intro a b c
  simp only [compLE, decide_eq_true_eq]
  exact fun h1 h2 => le_trans h2 h1

/-- The sort key relation is total. -/
theorem compLE_total : ∀ (a b : Component), compLE a b || compLE b a := by
  intro a b
  simp only [compLE, Bool.or_eq_true, decide_eq_true_eq]
  exact le_total _ _

/-- C4: a postal code matching no row of the ZIP-to-identifier table makes
aggregation fail by propagating the resolver's not-found error to the
caller rather than returning any result. -/
theorem retrieve_scores_for_zip_unknown_zip_fails (env : Env) (z : Int)
    (h : env.zipTable.filter (fun r => decide (r.1 = z)) = []) :
    retrieve_scores_for_zip env z = .error .valueError := by
  rw [retrieve_scores_for_zip, convert_zip_to_geoid]
  simp [h]

theorem retrieve_scores_for_zip_unknown_zip_fails_witness :
    envA.zipTable.filter (fun r => decide (r.1 = 999)) = [] ∧
    retrieve_scores_for_zip envA 999 = .error .valueError :=
  ⟨rfl, retrieve_scores_for_zip_unknown_zip_fails envA 999 rfl⟩

/-- C9: for a postal code with at least one matching row, the resolver
returns the identifier of every matching row in table order, preserving
duplicates, and the result length equals the number of matching rows. -/
theorem convert_zip_to_geoid_preserves_rows (env : Env) (z : Int)
    (h : env.zipTable.filter (fun r => decide (r.1 = z)) ≠ []) :
    convert_zip_to_geoid env z =
      .ok ((env.zipTable.filter (fun r => decide (r.1 = z))).map (fun r => r.2)) ∧
    ((env.zipTable.filter (fun r => decide (r.1 = z))).map (fun r => r.2)).length =
      env.zipTable.countP (fun r => decide (r.1 = z)) := by
  constructor
  · rw [convert_zip_to_geoid]
    simp only [List.isEmpty_iff, h, if_false]
  · simp [List.countP_eq_length_filter]

theorem convert_zip_to_geoid_preserves_rows_witness :
    envF.zipTable.filter (fun r => decide (r.1 = 100)) ≠ [] ∧
    (convert_zip_to_geoid envF 100 =
      .ok ((envF.zipTable.filter (fun r => decide (r.1 = 100))).map (fun r => r.2)) ∧
    ((envF.zipTable.filter (fun r => decide (r.1 = 100))).map (fun r => r.2)).length =
      envF.zipTable.countP (fun r => decide (r.1 = 100))) :=
  ⟨by decide, convert_zip_to_geoid_preserves_rows envF 100 (by decide)⟩

/-- C3 (code bug): geoid 2 of ZIP 100 has a score row but no factor row.
The missing factor row raises `IndexError` from the record indexing that
precedes the dead empty-check, and the loop's `except ValueError` does not
catch it, so the per-identifier failure propagates to the caller instead
of that identifier being discarded and iteration continuing. -/
theorem retrieve_components_missing_row_propagates :
    retrieve_components envC 2 = .error .indexError ∧
    retrieve_scores_for_zip envC 100 = .error .indexError :=
  ⟨rfl, rfl⟩

/-- C5 (code bug): when the only identifier has a score row but no factor
row, the code raises `IndexError` instead of returning the documented
sentinel result; the sentinel path is taken only when every failure is a
score-side `ValueError`. -/
theorem all_identifiers_fail_raises_index_error :
    retrieve_scores_for_zip envD 100 = .error .indexError ∧
    retrieve_scores_for_zip envD' 100 =
      .ok ({ linear_hai := 0, forest_hai := 0, nn_hai := 0, average_hai := -1 }, []) :=
  ⟨rfl, rfl⟩

/-- C10: the per-geoid loop appends a score set and a component list
together or not at all, so the two collections always have equal length;
consequently the two later guard branches of the aggregation body (the
all-minus-one sentinel return and the empty-collection return) can be
removed without changing the result on any input. -/
theorem collect_lengths_eq_and_dead_guards (env : Env) (z : Int)
    (geoids : List Int) (ss : List HAIScores) (cs : List (List Component))
    (h : collectLoop env geoids = .ok (ss, cs)) :
    ss.length = cs.length ∧
    retrieve_scores_for_zip env z = retrieve_scores_for_zip_live env z := by
  refine ⟨collectLoop_length_eq env geoids ss cs h, ?_⟩
  have hagg : ∀ (ss2 : List HAIScores) (cs2 : List (List Component)),
      aggregate ss2 cs2 = aggregate_live ss2 cs2 := by
    intro ss2 cs2
    rw [aggregate, aggregate_live]
    by_cases h0 : ss2.length = 0
    · simp [h0]
    · simp only [h0, if_false]
      by_cases hc : cs2.length = 0
      · have hce : cs2 = [] := List.length_eq_zero.1 hc
        subst hce
        simp [top_components, combined_components, component_scores]
      · simp [hc]
  rw [retrieve_scores_for_zip, retrieve_scores_for_zip_live]
  cases hconv : convert_zip_to_geoid env z with
  | error e => rfl
  | ok g2 =>
    cases hcol : collectLoop env g2 with
    | error e => simp [hcol]
    | ok pair =>
      obtain ⟨s2, c2⟩ := pair
      simp [hcol, hagg]

theorem collect_lengths_eq_and_dead_guards_witness :
    collectLoop envA [1] = .ok ([sA],
      [[{ name := "fac", description := some "No description available.",
          influence := "negative", score := 5 }]]) ∧
    (([sA] : List HAIScores).length =
      ([[{ name := "fac", description := some "No description available.",
           influence := "negative", score := 5 }]] : List (List Component)).length ∧
     retrieve_scores_for_zip envA 100 = retrieve_scores_for_zip_live envA 100) :=
  ⟨rfl, collect_lengths_eq_and_dead_guards envA 100 [1] [sA]
    [[{ name := "fac", description := some "No description available.",
        influence := "negative", score := 5 }]] rfl⟩

/-- C1: with at least one successful identifier, each of the three model
fields of the aggregated score set is the arithmetic mean of that field
over the successful score sets, and the average field is the mean of those
three means; with exactly one successful identifier the three fields equal
that identifier's raw scores and the average is their mean. -/
theorem retrieve_scores_for_zip_score_means (env : Env) (z : Int)
    (geoids : List Int) (ss : List HAIScores) (cs : List (List Component))
    (h1 : convert_zip_to_geoid env z = .ok geoids)
    (h2 : collectLoop env geoids = .ok (ss, cs))
    (h3 : ss ≠ []) :
    retrieve_scores_for_zip env z = .ok (aggregate ss cs) ∧
    (aggregate ss cs).1.linear_hai = (ss.map HAIScores.linear_hai).sum / (ss.length : ℚ) ∧
    (aggregate ss cs).1.forest_hai = (ss.map HAIScores.forest_hai).sum / (ss.length : ℚ) ∧
    (aggregate ss cs).1.nn_hai = (ss.map HAIScores.nn_hai).sum / (ss.length : ℚ) ∧
    (aggregate ss cs).1.average_hai =
      ((aggregate ss cs).1.linear_hai + (aggregate ss cs).1.forest_hai +
        (aggregate ss cs).1.nn_hai) / 3 ∧
    (∀ s0, ss = [s0] →
      (aggregate ss cs).1.linear_hai = s0.linear_hai ∧
      (aggregate ss cs).1.forest_hai = s0.forest_hai ∧
      (aggregate ss cs).1.nn_hai = s0.nn_hai ∧
      (aggregate ss cs).1.average_hai =
        (s0.linear_hai + s0.forest_hai + s0.nn_hai) / 3) := by
  have hlen : ¬ ss.length = 0 := fun hc => h3 (List.length_eq_zero.1 hc)
  have hfst : (aggregate ss cs).1 =
      { linear_hai := (ss.map HAIScores.linear_hai).sum / (ss.length : ℚ),
        forest_hai := (ss.map HAIScores.forest_hai).sum / (ss.length : ℚ),
        nn_hai := (ss.map HAIScores.nn_hai).sum / (ss.length : ℚ),
        average_hai := ((ss.map HAIScores.linear_hai).sum / (ss.length : ℚ) +
          (ss.map HAIScores.forest_hai).sum / (ss.length : ℚ) +
          (ss.map HAIScores.nn_hai).sum / (ss.length : ℚ)) / 3 } := by
    rw [aggregate]
    simp only [hlen, if_false]
    by_cases hc : cs.length = 0 <;> simp [hc]
  refine ⟨?_, ?_, ?_, ?_, ?_, ?_⟩
  · simp [retrieve_scores_for_zip, h1, h2]
  · rw [hfst]
  · rw [hfst]
  · rw [hfst]
  · rw [hfst]
  · intro s0 hs0
    subst hs0
    rw [hfst]
    norm_num

theorem retrieve_scores_for_zip_score_means_witness :
    convert_zip_to_geoid envA 100 = .ok [1] ∧
    collectLoop envA [1] = .ok ([sA],
      [[{ name := "fac", description := some "No description available.",
          influence := "negative", score := 5 }]]) ∧
    ([sA] : List HAIScores) ≠ [] ∧
    (retrieve_scores_for_zip envA 100 =
      .ok (aggregate [sA]
        [[{ name := "fac", description := some "No description available.",
            influence := "negative", score := 5 }]]) ∧
     (aggregate [sA]
        [[{ name := "fac", description := some "No description available.",
            influence := "negative", score := 5 }]]).1.linear_hai =
       (([sA] : List HAIScores).map HAIScores.linear_hai).sum /
         ((([sA] : List HAIScores).length : ℚ)) ∧
     (aggregate [sA]
        [[{ name := "fac", description := some "No description available.",
            influence := "negative", score := 5 }]]).1.forest_hai =
       (([sA] : List HAIScores).map HAIScores.forest_hai).sum /
         ((([sA] : List HAIScores).length : ℚ)) ∧
     (aggregate [sA]
        [[{ name := "fac", description := some "No description available.",
            influence := "negative", score := 5 }]]).1.nn_hai =
       (([sA] : List HAIScores).map HAIScores.nn_hai).sum /
         ((([sA] : List HAIScores).length : ℚ)) ∧
     (aggregate [sA]
        [[{ name := "fac", description := some "No description available.",
            influence := "negative", score := 5 }]]).1.average_hai =
       ((aggregate [sA]
          [[{ name := "fac", description := some "No description available.",
              influence := "negative", score := 5 }]]).1.linear_hai +
        (aggregate [sA]
          [[{ name := "fac", description := some "No description available.",
              influence := "negative", score := 5 }]]).1.forest_hai +
        (aggregate [sA]
          [[{ name := "fac", description := some "No description available.",
              influence := "negative", score := 5 }]]).1.nn_hai) / 3 ∧
     (∀ s0, ([sA] : List HAIScores) = [s0] →
       (aggregate [sA]
          [[{ name := "fac", description := some "No description available.",
              influence := "negative", score := 5 }]]).1.linear_hai = s0.linear_hai ∧
       (aggregate [sA]
          [[{ name := "fac", description := some "No description available.",
              influence := "negative", score := 5 }]]).1.forest_hai = s0.forest_hai ∧
       (aggregate [sA]
          [[{ name := "fac", description := some "No description available.",
              influence := "negative", score := 5 }]]).1.nn_hai = s0.nn_hai ∧
       (aggregate [sA]
          [[{ name := "fac", description := some "No description available.",
              influence := "negative", score := 5 }]]).1.average_hai =
         (s0.linear_hai + s0.forest_hai + s0.nn_hai) / 3)) :=
  ⟨rfl, rfl, by simp,
   retrieve_scores_for_zip_score_means envA 100 [1] [sA]
     [[{ name := "fac", description := some "No description available.",
         influence := "negative", score := 5 }]] rfl rfl (by simp)⟩

/-- The factor list returned by the aggregation body is empty or is the
merged-and-sorted top-5 list. -/
theorem aggregate_snd_eq (ss : List HAIScores) (cs : List (List Component)) :
    (aggregate ss cs).2 = [] ∨
    (aggregate ss cs).2 = top_components (ss.length : ℚ) cs := by
  rw [aggregate]
  by_cases h0 : ss.length = 0
  · simp [h0]
  · by_cases hcs : cs.length = 0
    · simp [h0, hcs]
    · simp [h0, hcs]

/-- Every factor returned by the aggregation body is one of the merged
components. -/
theorem aggregate_snd_subset (ss : List HAIScores) (cs : List (List Component)) :
    ∀ c ∈ (aggregate ss cs).2, c ∈ combined_components (ss.length : ℚ) cs := by
  intro c hc
  rcases aggregate_snd_eq ss cs with hsnd | hsnd
  · rw [hsnd] at hc
    cases hc
  · rw [hsnd, top_components] at hc
    exact (List.mem_mergeSort).1 (List.mem_of_mem_take hc)

/-- C2: with k ≥ 1 successful identifiers whose factor lists have distinct
names, the merged magnitude of every accumulated factor equals the sum of
its raw values over the lists where it appears (an absent factor
contributing zero) divided by k, every observed name is merged, and every
returned factor carries that averaged magnitude. -/
theorem combined_components_factor_average (env : Env)
    (geoids : List Int) (ss : List HAIScores) (cs : List (List Component))
    (h2 : collectLoop env geoids = .ok (ss, cs))
    (h3 : ss ≠ [])
    (hnd : ∀ l ∈ cs, (l.map Component.name).Nodup) :
    (∀ c ∈ combined_components (ss.length : ℚ) cs,
      c.score = (cs.map (fun l => lookupScore l c.name)).sum / (ss.length : ℚ)) ∧
    (∀ n, n ∈ cs.flatten.map Component.name →
      ∃ c ∈ combined_components (ss.length : ℚ) cs, c.name = n) ∧
    (∀ c ∈ (aggregate ss cs).2,
      c.score = (cs.map (fun l => lookupScore l c.name)).sum / (ss.length : ℚ)) := by
  have hmain : ∀ c ∈ combined_components (ss.length : ℚ) cs,
      c.score = (cs.map (fun l => lookupScore l c.name)).sum / (ss.length : ℚ) := by
    intro c hc
    obtain ⟨p, hp, fc, hfc, rfl⟩ := (mem_combined_components _ _ _).1 hc
    have hval : getScore (component_scores cs) p.1 = p.2 :=
      getScore_of_mem _ (component_scores_keys_nodup cs) p hp
    have hsum := getScore_component_scores cs p.1
    have hconv : (cs.map (fun l =>
        (l.map (fun c => if c.name = p.1 then c.score else 0)).sum)) =
        cs.map (fun l => lookupScore l p.1) :=
      List.map_congr_left (fun l hl => sum_ite_eq_lookupScore l p.1 (hnd l hl))
    have : p.2 = (cs.map (fun l => lookupScore l p.1)).sum := by
      rw [← hconv, ← hsum, hval]
    show p.2 / (ss.length : ℚ) = _
    rw [this]
  refine ⟨hmain, ?_, ?_⟩
  · intro n hn
    have hk : n ∈ (component_scores cs).map Prod.fst :=
      (component_scores_keys_mem cs n).2 hn
    obtain ⟨p, hp, hpn⟩ := List.mem_map.1 hk
    obtain ⟨x, hx, hxn⟩ := List.mem_map.1 hn
    cases hfind : cs.flatten.find? (fun c => decide (c.name = p.1)) with
    | none =>
      exfalso
      have := List.find?_eq_none.1 hfind x hx
      rw [hxn, hpn] at this
      simp at this
    | some fc =>
      refine ⟨{ name := p.1, description := none, influence := fc.influence,
                score := p.2 / (ss.length : ℚ) }, ?_, hpn⟩
      exact (mem_combined_components _ _ _).2 ⟨p, hp, fc, hfind, rfl⟩
  · intro c hc
    exact hmain c (aggregate_snd_subset ss cs c hc)

/-- C7: the influence label of every returned factor is "positive" exactly
when the raw value of the first observed occurrence of its name (in
resolution order, before any summation) is ≤ 0, and "negative" otherwise;
it is never recomputed from the averaged magnitude. -/
theorem top_components_influence_first_observed (env : Env)
    (geoids : List Int) (ss : List HAIScores) (cs : List (List Component))
    (h2 : collectLoop env geoids = .ok (ss, cs)) :
    ∀ c ∈ (aggregate ss cs).2, ∃ fc,
      cs.flatten.find? (fun x => decide (x.name = c.name)) = some fc ∧
      c.influence = (if fc.score ≤ 0 then "positive" else "negative") ∧
      (c.influence = "positive" ↔ fc.score ≤ 0) := by
  intro c hc
  obtain ⟨p, hp, fc, hfc, rfl⟩ :=
    (mem_combined_components _ _ _).1 (aggregate_snd_subset ss cs c hc)
  have hfcmem : fc ∈ cs.flatten := List.mem_of_find?_eq_some hfc
  obtain ⟨l, hl, hfl⟩ := List.mem_flatten.1 hfcmem
  obtain ⟨g, hg⟩ := collectLoop_components_sources env geoids ss cs h2 l hl
  have hinf := (retrieve_components_fields env g l hg fc hfl).2
  refine ⟨fc, hfc, hinf, ?_⟩
  show fc.influence = "positive" ↔ fc.score ≤ 0
  rw [hinf]
  by_cases hsc : fc.score ≤ 0 <;> simp [hsc]

/-- C6: the returned factor list is pairwise sorted by descending absolute
averaged magnitude, its length is min 5 of the number of distinct factor
names observed across the successful identifiers, and the sort is stable:
a pair of merged entries with equal absolute magnitude keeps its insertion
order through the sort. -/
theorem top_components_sorted_length_stable (env : Env)
    (geoids : List Int) (ss : List HAIScores) (cs : List (List Component))
    (h2 : collectLoop env geoids = .ok (ss, cs)) :
    (aggregate ss cs).2.Pairwise (fun a b => |b.score| ≤ |a.score|) ∧
    (aggregate ss cs).2.length = min 5 ((cs.flatten.map Component.name).toFinset.card) ∧
    (∀ a b, |a.score| = |b.score| →
      List.Sublist [a, b] (combined_components (ss.length : ℚ) cs) →
      List.Sublist [a, b] ((combined_components (ss.length : ℚ) cs).mergeSort compLE)) := by
  have hlen := collectLoop_length_eq env geoids ss cs h2
  refine ⟨?_, ?_, ?_⟩
  · rcases aggregate_snd_eq ss cs with hsnd | hsnd
    · simp [hsnd]
    · rw [hsnd, top_components]
      have hsorted := List.sorted_mergeSort compLE_trans compLE_total
        (combined_components (ss.length : ℚ) cs)
      have hpw := List.Pairwise.sublist (List.take_sublist 5 _) hsorted
      exact hpw.imp (fun h => by simpa [compLE] using h)
  · by_cases h0 : ss.length = 0
    · have hcs0 : cs = [] := List.length_eq_zero.1 (by rw [← hlen, h0])
      subst hcs0
      simp [aggregate, h0]
    · by_cases hcs : cs.length = 0
      · have hce : cs = [] := List.length_eq_zero.1 hcs
        subst hce
        simp [aggregate, h0]
      · have hsnd : (aggregate ss cs).2 = top_components (ss.length : ℚ) cs := by
          rw [aggregate]
          simp [h0, hcs]
        rw [hsnd, top_components, List.length_take, List.length_mergeSort,
          combined_components_length, component_scores_length_card]
  · intro a b heq hsub
    exact List.pair_sublist_mergeSort compLE_trans compLE_total
      (by simp [compLE, heq]) hsub

theorem combined_components_factor_average_witness :
    collectLoop envA [1] = .ok ([sA], [[facA]]) ∧
    ([sA] : List HAIScores) ≠ [] ∧
    (∀ l ∈ ([[facA]] : List (List Component)), (l.map Component.name).Nodup) ∧
    ((∀ c ∈ combined_components ((([sA] : List HAIScores).length : ℚ)) [[facA]],
        c.score =
          (([[facA]] : List (List Component)).map (fun l => lookupScore l c.name)).sum /
            ((([sA] : List HAIScores).length : ℚ))) ∧
     (∀ n, n ∈ ([[facA]] : List (List Component)).flatten.map Component.name →
        ∃ c ∈ combined_components ((([sA] : List HAIScores).length : ℚ)) [[facA]],
          c.name = n) ∧
     (∀ c ∈ (aggregate [sA] [[facA]]).2,
        c.score =
          (([[facA]] : List (List Component)).map (fun l => lookupScore l c.name)).sum /
            ((([sA] : List HAIScores).length : ℚ)))) :=
  ⟨rfl, by simp, by simp [facA],
   combined_components_factor_average envA [1] [sA] [[facA]] rfl (by simp) (by simp [facA])⟩

theorem top_components_influence_first_observed_witness :
    collectLoop envA [1] = .ok ([sA], [[facA]]) ∧
    (∀ c ∈ (aggregate [sA] [[facA]]).2, ∃ fc,
      ([[facA]] : List (List Component)).flatten.find?
        (fun x => decide (x.name = c.name)) = some fc ∧
      c.influence = (if fc.score ≤ 0 then "positive" else "negative") ∧
      (c.influence = "positive" ↔ fc.score ≤ 0)) :=
  ⟨rfl, top_components_influence_first_observed envA [1] [sA] [[facA]] rfl⟩

theorem top_components_sorted_length_stable_witness :
    collectLoop envG [1] = .ok ([sA], [compsG]) ∧
    ((aggregate [sA] [compsG]).2.Pairwise (fun a b => |b.score| ≤ |a.score|) ∧
     (aggregate [sA] [compsG]).2.length =
       min 5 ((([compsG] : List (List Component)).flatten.map Component.name).toFinset.card) ∧
     (∀ a b, |a.score| = |b.score| →
       List.Sublist [a, b]
         (combined_components ((([sA] : List HAIScores).length : ℚ)) [compsG]) →
       List.Sublist [a, b]
         ((combined_components ((([sA] : List HAIScores).length : ℚ)) [compsG]).mergeSort
           compLE))) :=
  ⟨by simp [collectLoop, retrieve_hai_scores, retrieve_components,
     retrieve_comp_description, envG, sA, compsG],
   top_components_sorted_length_stable envG [1] [sA] [compsG]
     (by simp [collectLoop, retrieve_hai_scores, retrieve_components,
       retrieve_comp_description, envG, sA, compsG])⟩

/-- C8 (counterexample): at the concrete environment `envA` the single
factor delivered to the caller for ZIP 100 carries no description at all —
neither a mapped text nor the placeholder — because the aggregation
constructs the top-5 entries without one. -/
theorem aggregated_component_description_missing :
    ∃ s c, retrieve_scores_for_zip envA 100 = .ok (s, [c]) ∧ c.description = none := by
  refine ⟨{ linear_hai := 7/10, forest_hai := 3/5, nn_hai := 13/20, average_hai := 13/20 },
    { name := "fac", description := none, influence := "negative", score := 5 }, ?_, rfl⟩
  simp +decide [retrieve_scores_for_zip, convert_zip_to_geoid, collectLoop,
    retrieve_hai_scores, retrieve_components, retrieve_comp_description, aggregate,
    top_components, combined_components, component_scores, addScore, compLE, envA, sA]
  norm_num

/-- C8 (amended): components built by the per-identifier factor retriever
carry the looked-up description (the placeholder when the name is
unmapped), while the aggregated top-5 entries delivered to the caller are
constructed without any description. -/
theorem component_description_policy (env : Env) (geoid : Int) (l : List Component)
    (h : retrieve_components env geoid = .ok l) :
    (∀ c ∈ l, c.description = some (retrieve_comp_description env c.name)) ∧
    (∀ (ss : List HAIScores) (cs : List (List Component)),
      ∀ c ∈ (aggregate ss cs).2, c.description = none) := by
  refine ⟨fun c hc => (retrieve_components_fields env geoid l h c hc).1, ?_⟩
  intro ss cs c hc
  obtain ⟨p, hp, fc, hfc, rfl⟩ :=
    (mem_combined_components _ _ _).1 (aggregate_snd_subset ss cs c hc)
  rfl

theorem component_description_policy_witness :
    retrieve_components envA 1 = .ok [facA] ∧
    ((∀ c ∈ ([facA] : List Component),
        c.description = some (retrieve_comp_description envA c.name)) ∧
     (∀ (ss : List HAIScores) (cs : List (List Component)),
        ∀ c ∈ (aggregate ss cs).2, c.description = none)) :=
  ⟨rfl, component_description_policy envA 1 [facA] rfl⟩
